import Mathlib

/-!
Verification of the deterministic compliance-and-verification engine of the
wm-genai-models-governance repository: the rule-based compliance checks
(`models/compliance-checker/src/checker.py`), the demo rule-check endpoint
(`governance/app/main.py`), the numeric fact-verification matcher
(`models/portfolio-risk-narrator/src/narrator.py`) and the PII scanner
(`models/meeting-summarizer/src/summarizer.py`).

Text is modelled as `List Char`; Python floats are modelled as rationals.
Regular-expression searches from the source are embedded as explicit
matchers over character lists, one per pattern, with Python `re.search`
left-to-right first-match semantics.
-/

/-- ASCII lower-casing of one character; embeds Python `str.lower()`
(all source texts are ASCII). -/
def lowerChar (c : Char) : Char :=
  if 65 ≤ c.toNat ∧ c.toNat ≤ 90 then Char.ofNat (c.toNat + 32) else c

/-- The apostrophe character (avoids an apostrophe escape in literals). -/
def squo : Char := Char.ofNat 39

/-- Python regex `\w`: letters, digits and underscore (ASCII scope). -/
def isWordChar (c : Char) : Bool := c.isAlpha || c.isDigit || c = '_'

/-- Python regex `\s`: the six ASCII whitespace characters. -/
def isSpacePy (c : Char) : Bool :=
  c = ' ' || c = Char.ofNat 9 || c = Char.ofNat 10 || c = Char.ofNat 13 ||
  c = Char.ofNat 11 || c = Char.ofNat 12

/-- Python substring test `needle in hay`. -/
def pyIn (needle hay : List Char) : Bool :=
  (List.range (hay.length + 1)).any (fun i => needle.isPrefixOf (hay.drop i))

/-- Consume the literal `lit` from the front of `cs`, returning the remainder. -/
def stripLit : List Char → List Char → Option (List Char)
  | [], cs => some cs
  | _ :: _, [] => none
  | a :: as, c :: cs => if c = a then stripLit as cs else none

/-- Wordness of the character preceding the current position (`none` at the
start of the text). -/
def prevIsWord : Option Char → Bool
  | none => false
  | some p => isWordChar p

/-- Python regex `\b` evaluated at a match-start position: the position lies
between a word character and a non-word character. A match cannot start at
the end of the text since every embedded pattern consumes at least one
character. -/
def atBoundary : Option Char → List Char → Bool
  | _, [] => false
  | prev, c :: _ => xor (prevIsWord prev) (isWordChar c)

/-- Python regex `\b` evaluated at a match-end position: end of text or a
non-word character follows (the last consumed character of every embedded
pattern is a word character). -/
def endBoundary : List Char → Bool
  | [] => true
  | c :: _ => !isWordChar c

/-- `re.search` scan: try the positional matcher `pat` at every position from
left to right; return the first match position and its length. -/
def searchPatFrom (pat : Option Char → List Char → Option Nat) :
    Option Char → Nat → List Char → Option (Nat × Nat)
  | _, _, [] => none
  | prev, i, c :: rest =>
    match pat prev (c :: rest) with
    | some l => some (i, l)
    | none => searchPatFrom pat (some c) (i + 1) rest

/-- First match of `pat` in `cs`, as in `re.search`. -/
def searchPat (pat : Option Char → List Char → Option Nat) (cs : List Char) :
    Option (Nat × Nat) :=
  searchPatFrom pat none 0 cs

/-- Matcher for `\bguarantee[ds]?\b` at one position ("guarantee" optionally
followed by a greedy `d` or `s`, word boundaries at both ends). -/
def guaranteeAt (prev : Option Char) (cs : List Char) : Option Nat :=
  if atBoundary prev cs then
    match stripLit "guarantee".toList cs with
    | none => none
    | some [] => some 9
    | some (c :: r2) =>
      if c = 'd' || c = 's' then
        if endBoundary r2 then some 10 else none
      else if endBoundary (c :: r2) then some 9 else none
  else none

/-- Separator class `[\s-]`. -/
def isSepSB (c : Char) : Bool := c = '-' || isSpacePy c

/-- Matcher for `\brisk[\s-]?free\b` at one position. -/
def riskFreeAt (prev : Option Char) (cs : List Char) : Option Nat :=
  if atBoundary prev cs then
    match stripLit "risk".toList cs with
    | none => none
    | some [] => none
    | some (c :: r2) =>
      if isSepSB c then
        match stripLit "free".toList r2 with
        | some r3 => if endBoundary r3 then some 9 else none
        | none => none
      else
        match stripLit "free".toList (c :: r2) with
        | some r3 => if endBoundary r3 then some 8 else none
        | none => none
  else none

/-- Matcher for `\bcan'?t lose\b` at one position. -/
def cantLoseAt (prev : Option Char) (cs : List Char) : Option Nat :=
  if atBoundary prev cs then
    match stripLit "can".toList cs with
    | none => none
    | some [] => none
    | some (c :: r2) =>
      if c = squo then
        match stripLit "t lose".toList r2 with
        | some r3 => if endBoundary r3 then some 10 else none
        | none => none
      else
        match stripLit "t lose".toList (c :: r2) with
        | some r3 => if endBoundary r3 then some 9 else none
        | none => none
  else none

/-- Matcher for a plain word-bounded literal such as `\bno risk\b`. -/
def litPatAt (lit : List Char) (prev : Option Char) (cs : List Char) :
    Option Nat :=
  if atBoundary prev cs then
    match stripLit lit cs with
    | some r => if endBoundary r then some lit.length else none
    | none => none
  else none

/-- The eight promissory-language patterns of
`checker._rule_based_checks`, in source order:
`\bguarantee[ds]?\b`, `\brisk[\s-]?free\b`, `\bcan'?t lose\b`,
`\bwill definitely\b`, `\bsure thing\b`, `\bno risk\b`, `\bcertain to\b`,
`\bassured\b`. -/
def promPatterns : List (Option Char → List Char → Option Nat) :=
  [guaranteeAt, riskFreeAt, cantLoseAt,
   litPatAt "will definitely".toList, litPatAt "sure thing".toList,
   litPatAt "no risk".toList, litPatAt "certain to".toList,
   litPatAt "assured".toList]

/-- Matcher for the SSN pattern `\b\d{3}-\d{2}-\d{4}\b` at one position. -/
def ssnAt (prev : Option Char) (cs : List Char) : Option Nat :=
  if atBoundary prev cs then
    match cs with
    | d1 :: d2 :: d3 :: '-' :: m1 :: m2 :: '-' :: l1 :: l2 :: l3 :: l4 :: rest =>
      if (d1.isDigit && d2.isDigit && d3.isDigit && m1.isDigit && m2.isDigit &&
          l1.isDigit && l2.isDigit && l3.isDigit && l4.isDigit) &&
          endBoundary rest then some 11 else none
    | _ => none
  else none

/-- `re.search(r"\b\d{3}-\d{2}-\d{4}\b", text)` as a Boolean. -/
def ssn_search (text : List Char) : Bool := (searchPat ssnAt text).isSome

/-- Violation categories of `checker.ViolationType`. -/
inductive ViolationType where
  | misleading_performance
  | promissory_language
  | missing_disclosure
  | unsuitable_recommendation
  | pii_in_external
  | unbalanced_presentation
  | cherry_picked_timeframe
  | testimonial_violation
  | social_media_violation
  | unapproved_content
  deriving DecidableEq, Repr

/-- `checker.Violation`. -/
structure Violation where
  violation_type : ViolationType
  severity : String
  description : List Char
  evidence : List Char
  regulation : String
  suggested_fix : List Char
  deriving DecidableEq, Repr

/-- `checker.ComplianceDecision`. -/
inductive ComplianceDecision where
  | approved
  | requires_changes
  | rejected
  | escalate
  deriving DecidableEq, Repr

/-- `checker.ClientContext`. -/
structure ClientContext where
  client_type : String := "retail"
  risk_tolerance : String := "moderate"
  investment_experience : String := "intermediate"
  age : Option Int := none
  is_senior : Bool := false
  account_type : String := "brokerage"
  deriving DecidableEq, Repr

/-- `checker.ComplianceReport`. -/
structure ComplianceReport where
  decision : ComplianceDecision
  overall_risk_score : ℚ
  violations : List Violation
  warnings : List (List Char)
  required_disclosures : List (List Char)
  suggested_revisions : List (List Char)
  communication_type : String
  contains_performance_data : Bool
  contains_recommendations : Bool
  contains_projections : Bool
  applicable_rules : List String
  confidence_score : ℚ
  deriving DecidableEq, Repr

/-- `sum(1 for v in violations if v.severity == "high")`. -/
def highCount (vs : List Violation) : Nat :=
  vs.countP (fun v => v.severity == "high")

/-- The promissory-language finding built from a rule match (token `tok` at
position `s`, length `l`); evidence is the slice of the original text from
`match.start() - 20` to `match.end() + 20`. -/
def mkPromViolation (text : List Char) (tok : List Char) (s l : Nat) : Violation :=
  { violation_type := ViolationType.promissory_language
    severity := "high"
    description := "Promissory language detected: ".toList ++ [squo] ++ tok ++ [squo]
    evidence := (text.drop (s - 20)).take (s + l + 20 - (s - 20))
    regulation := "FINRA Rule 2210(d)(1)(B)"
    suggested_fix := "Remove ".toList ++ [squo] ++ tok ++ [squo] ++
      " and replace with balanced language acknowledging risks".toList }

/-- The `already_flagged` test of `checker._rule_based_checks`: some existing
finding of type promissory_language already contains the lower-cased matched
token in its lower-cased evidence. -/
def promDup (tok : List Char) (vs : List Violation) : Bool :=
  vs.any (fun v => v.violation_type == ViolationType.promissory_language &&
    pyIn (tok.map lowerChar) (v.evidence.map lowerChar))

/-- One iteration of the promissory-pattern loop of
`checker._rule_based_checks`: search the lowered text, skip when an existing
finding of the same type already contains the matched token
(case-insensitively), else append a new finding. -/
def promStep (text lower : List Char) (vs : List Violation)
    (pat : Option Char → List Char → Option Nat) : List Violation :=
  match searchPat pat lower with
  | none => vs
  | some (s, l) =>
    let tok := (lower.drop s).take l
    if promDup tok vs then vs
    else vs ++ [mkPromViolation text tok s l]

/-- The full promissory-pattern loop over the eight patterns. -/
def promLoop (text lower : List Char) (vs : List Violation) : List Violation :=
  promPatterns.foldl (promStep text lower) vs

/-- The PII finding of `checker._rule_based_checks` (note the synthesized
placeholder evidence). -/
def piiViolation : Violation :=
  { violation_type := ViolationType.pii_in_external
    severity := "high"
    description := "Social Security Number detected in external communication".toList
    evidence := "[SSN REDACTED]".toList
    regulation := "Reg S-P (Privacy of Consumer Financial Information)"
    suggested_fix := "Remove all SSN references from external communications".toList }

/-- Disclaimer-phrase test of `checker._rule_based_checks`. -/
def hasDisclaimer (lower : List Char) : Bool :=
  ["past performance", "no guarantee", "not indicative", "may lose value"].any
    (fun p => pyIn p.toList lower)

/-- The disclosure appended when performance data lacks a disclaimer. -/
def disclosureText : List Char :=
  "Past performance is not indicative of future results. Investments may lose value.".toList

/-- The senior-investor warning of `checker._rule_based_checks`. -/
def seniorWarning : List Char :=
  ("SENIOR INVESTOR: This communication contains recommendations to a senior investor. " ++
   "Heightened supervision required per FINRA Regulatory Notice 07-43.").toList

/-- `if client_context and client_context.is_senior`. -/
def isSeniorCtx : Option ClientContext → Bool
  | none => false
  | some c => c.is_senior

/-- The decision cascade at the end of `checker._rule_based_checks`
(lines 216-223).  Note there is no final else branch: in the residual case
the report's incoming decision is left unchanged. -/
def checkerDecide (prior : ComplianceDecision) (vs : List Violation)
    (ws : List (List Char)) : ComplianceDecision :=
  if 2 ≤ highCount vs then ComplianceDecision.rejected
  else if highCount vs = 1 ∨ 3 ≤ vs.length then ComplianceDecision.requires_changes
  else if vs.length = 0 ∧ ws.length = 0 then ComplianceDecision.approved
  else prior

/-- `min(1.0, len(violations) * 0.2 + high_violations * 0.3)`. -/
def checkerRisk (vs : List Violation) : ℚ :=
  min 1 ((vs.length : ℚ) * (2/10) + (highCount vs : ℚ) * (3/10))

/-- `checker._rule_based_checks`: the deterministic aggregation step applied
to an incoming report, the raw communication text and the optional client
context. -/
def rule_based_checks (report : ComplianceReport) (text : List Char)
    (ctx : Option ClientContext) : ComplianceReport :=
  let lower := text.map lowerChar
  let vs2 := promLoop text lower report.violations ++
    (if ssn_search text then [piiViolation] else [])
  { report with
    violations := vs2
    required_disclosures := report.required_disclosures ++
      (if report.contains_performance_data && !hasDisclaimer lower
       then [disclosureText] else [])
    warnings := report.warnings ++
      (if isSeniorCtx ctx && report.contains_recommendations
       then [seniorWarning] else [])
    decision := checkerDecide report.decision vs2
      (report.warnings ++
        (if isSeniorCtx ctx && report.contains_recommendations
         then [seniorWarning] else []))
    overall_risk_score := checkerRisk vs2 }

/-- Python `str.strip()` (ASCII whitespace). -/
def pyStrip (cs : List Char) : List Char :=
  ((cs.dropWhile isSpacePy).reverse.dropWhile isSpacePy).reverse

/-- Matcher for `\bassured returns?\b` (demo endpoint) at one position. -/
def assuredReturnsAt (prev : Option Char) (cs : List Char) : Option Nat :=
  if atBoundary prev cs then
    match stripLit "assured return".toList cs with
    | none => none
    | some [] => some 14
    | some (c :: r2) =>
      if c = 's' then
        if endBoundary r2 then some 15 else none
      else if endBoundary (c :: r2) then some 14 else none
  else none

/-- A violation dict of `main.demo_compliance_check`. -/
structure DemoViolation where
  vtype : String
  severity : String
  description : List Char
  evidence : List Char
  regulation : String
  fix : List Char
  deriving DecidableEq, Repr

/-- The promissory pattern table of `main.demo_compliance_check`
(pattern, display word), in source order: `\bguarantee[ds]?\b`,
`\brisk[\s-]?free\b`, `\bcan'?t lose\b`, `\bwill definitely\b`,
`\bsure thing\b`, `\bno risk\b`, `\bassured returns?\b`. -/
def demoPromTable : List ((Option Char → List Char → Option Nat) × List Char) :=
  [(guaranteeAt, "guaranteed".toList), (riskFreeAt, "risk-free".toList),
   (cantLoseAt, "can".toList ++ [squo] ++ "t lose".toList),
   (litPatAt "will definitely".toList, "will definitely".toList),
   (litPatAt "sure thing".toList, "sure thing".toList),
   (litPatAt "no risk".toList, "no risk".toList),
   (assuredReturnsAt, "assured returns".toList)]

/-- The promissory finding appended by the demo endpoint for a match of the
pattern with display word `word` at position `s`, length `l`; evidence is the
stripped slice of the original text from `start - 30` to `end + 30`. -/
def mkDemoPromViolation (text : List Char) (word : List Char) (s l : Nat) :
    DemoViolation :=
  { vtype := "promissory_language"
    severity := "high"
    description := "Promissory language: ".toList ++ [squo] ++ word ++ [squo]
    evidence := pyStrip ((text.drop (s - 30)).take (s + l + 30 - (s - 30)))
    regulation := "FINRA Rule 2210(d)(1)(B)"
    fix := "Remove ".toList ++ [squo] ++ word ++ [squo] ++
      " and add risk disclaimers".toList }

/-- The demo endpoint's promissory loop: every matching pattern appends a
finding (no de-duplication in this variant). -/
def demoPromFindings (text lower : List Char) : List DemoViolation :=
  demoPromTable.foldl
    (fun acc pw =>
      match searchPat pw.1 lower with
      | none => acc
      | some (s, l) => acc ++ [mkDemoPromViolation text pw.2 s l]) []

/-- Matcher for `\d+\.?\d*%\s*(return|performance|gain|yield|annual)` at one
position (this pattern has no word boundaries). -/
def perfAt (cs : List Char) : Bool :=
  let d1 := cs.takeWhile Char.isDigit
  if d1.isEmpty then false
  else
    let r1 := cs.dropWhile Char.isDigit
    let r2 := match r1 with
      | '.' :: t => t.dropWhile Char.isDigit
      | _ => r1
    match r2 with
    | '%' :: r3 =>
      let r4 := r3.dropWhile isSpacePy
      ["return", "performance", "gain", "yield", "annual"].any
        (fun w => w.toList.isPrefixOf r4)
    | _ => false

/-- `re.search` of the performance-token pattern, as a Boolean. -/
def perf_search : List Char → Bool
  | [] => false
  | c :: rest => perfAt (c :: rest) || perf_search rest

/-- Disclaimer-phrase test of the demo endpoint (same four phrases as the
checker, listed in the demo source order). -/
def hasDisclaimerDemo (lower : List Char) : Bool :=
  ["past performance", "no guarantee", "may lose value", "not indicative"].any
    (fun p => pyIn p.toList lower)

/-- The missing-disclosure finding of the demo endpoint. -/
def demoDisclosureViolation : DemoViolation :=
  { vtype := "missing_disclosure"
    severity := "high"
    description := "Performance data cited without required disclaimer".toList
    evidence := "Performance percentage found without ".toList ++ [squo] ++
      "past performance".toList ++ [squo] ++ " disclaimer".toList
    regulation := "SEC Marketing Rule 206(4)-1"
    fix := "Add: ".toList ++ [squo] ++
      "Past performance is not indicative of future results. Investments may lose value.".toList ++
      [squo] }

/-- The PII finding of the demo endpoint. -/
def demoPiiViolation : DemoViolation :=
  { vtype := "pii_in_external"
    severity := "high"
    description := "Social Security Number detected in communication".toList
    evidence := "[SSN REDACTED]".toList
    regulation := "Reg S-P"
    fix := "Remove all SSN references".toList }

/-- Try each alternative of a word alternation (with outer `\b` bounds) at one
position, in listed order. -/
def altAt (alts : List (List Char)) (prev : Option Char) (cs : List Char) :
    Option Nat :=
  match alts with
  | [] => none
  | lit :: rest =>
    match litPatAt lit prev cs with
    | some l => some l
    | none => altAt rest prev cs

/-- `len(re.findall(...))` for a word alternation: scan left to right, count
non-overlapping matches, resume after each match (tracking the character
preceding the resume position for the `\b` test). Every alternative consumes
at least one character, so a fuel equal to the text length never runs out. -/
def countAltsFuel (alts : List (List Char)) :
    Nat → Option Char → List Char → Nat
  | 0, _, _ => 0
  | _ + 1, _, [] => 0
  | fuel + 1, prev, c :: rest =>
    match altAt alts prev (c :: rest) with
    | some l => 1 + countAltsFuel alts fuel ((c :: rest).get? (l - 1))
        ((c :: rest).drop l)
    | none => countAltsFuel alts fuel (some c) rest

/-- Number of matches of the alternation in the whole text. -/
def countAlts (alts : List (List Char)) (cs0 : List Char) : Nat :=
  countAltsFuel alts cs0.length none cs0

/-- Positive lexicon `\b(great|excellent|outstanding|superior|best|top|outperform)\b`. -/
def posWords : List (List Char) :=
  ["great", "excellent", "outstanding", "superior", "best", "top",
   "outperform"].map String.toList

/-- Risk lexicon `\b(risk|loss|decline|volatility|uncertainty|downturn)\b`. -/
def riskWords : List (List Char) :=
  ["risk", "loss", "decline", "volatility", "uncertainty", "downturn"].map
    String.toList

/-- The unbalanced-presentation finding of the demo endpoint. -/
def demoUnbalancedViolation (positive : Nat) : DemoViolation :=
  { vtype := "unbalanced_presentation"
    severity := "medium"
    description := "Unbalanced: ".toList ++ (toString positive).toList ++
      " positive terms, 0 risk acknowledgements".toList
    evidence := "Communication is entirely positive without risk discussion".toList
    regulation := "FINRA Rule 2210(d)(1)(A) - Fair and Balanced"
    fix := "Add balanced discussion of risks and potential downsides".toList }

/-- `sum(1 for v in violations if v["severity"] == "high")` (demo variant). -/
def demoHighCount (dvs : List DemoViolation) : Nat :=
  dvs.countP (fun v => v.severity == "high")

/-- The decision cascade of `main.demo_compliance_check` (lines 465-474);
this variant uses the threshold `len(violations) >= 2` and has an explicit
residual else branch returning "requires_changes". -/
def demoDecide (dvs : List DemoViolation) : String :=
  if 2 ≤ demoHighCount dvs then "rejected"
  else if demoHighCount dvs = 1 ∨ 2 ≤ dvs.length then "requires_changes"
  else if dvs.length = 0 then "approved"
  else "requires_changes"

/-- Python `round(q, 2)` (round half to even) on rationals. -/
def round2 (q : ℚ) : ℚ :=
  let s := q * 100
  let f : ℤ := ⌊s⌋
  let r := s - (f : ℚ)
  let n : ℤ :=
    if r < 1/2 then f
    else if 1/2 < r then f + 1
    else if 2 ∣ f then f else f + 1
  (n : ℚ) / 100

/-- `round(min(1.0, len(violations) * 0.2 + high_count * 0.3), 2)`. -/
def demoRisk (dvs : List DemoViolation) : ℚ :=
  round2 (min 1 ((dvs.length : ℚ) * (2/10) + (demoHighCount dvs : ℚ) * (3/10)))

/-- The result dict of `main.demo_compliance_check` (static string fields and
the note are omitted; all decision-relevant fields are kept). -/
structure DemoResult where
  input_length : Nat
  decision : String
  violations_count : Nat
  violations : List DemoViolation
  risk_score : ℚ
  required_disclosures : List (List Char)
  deriving DecidableEq, Repr

/-- Body of `main.demo_compliance_check` after the emptiness guard. -/
def demo_check_core (text : List Char) : DemoResult :=
  let lower := text.map lowerChar
  let hasPerf := perf_search lower
  let hasDisc := hasDisclaimerDemo lower
  let v2 := demoPromFindings text lower ++
    (if hasPerf && !hasDisc then [demoDisclosureViolation] else [])
  let v3 := v2 ++ (if ssn_search text then [demoPiiViolation] else [])
  let positive := countAlts posWords lower
  let risky := countAlts riskWords lower
  let v4 := v3 ++
    (if 3 ≤ positive ∧ risky = 0 then [demoUnbalancedViolation positive] else [])
  { input_length := text.length
    decision := demoDecide v4
    violations_count := v4.length
    violations := v4
    risk_score := demoRisk v4
    required_disclosures :=
      if hasPerf && !hasDisc then [disclosureText] else [] }

/-- `main.demo_compliance_check`: empty text is rejected with an error dict
(modelled as `none`). -/
def demo_compliance_check (text : List Char) : Option DemoResult :=
  if text = [] then none else some (demo_check_core text)

/-- Tokenizer for `re.findall(r'[\d]+\.[\d]+|[\d]+', full_text)`: at a digit,
the first alternative takes a maximal digit run, a dot and another digit run;
otherwise the second alternative takes the digit run alone; scanning resumes
after the match. A fuel equal to the text length never runs out since every
step consumes at least one character. -/
def scanNumsFuel : Nat → List Char → List (List Char)
  | 0, _ => []
  | _ + 1, [] => []
  | fuel + 1, c :: rest =>
    if c.isDigit then
      let d1 := (c :: rest).takeWhile Char.isDigit
      let r1 := (c :: rest).dropWhile Char.isDigit
      match r1 with
      | '.' :: x :: t2 =>
        if x.isDigit then
          (d1 ++ '.' :: (x :: t2).takeWhile Char.isDigit) ::
            scanNumsFuel fuel ((x :: t2).dropWhile Char.isDigit)
        else d1 :: scanNumsFuel fuel ('.' :: x :: t2)
      | _ => d1 :: scanNumsFuel fuel r1
    else scanNumsFuel fuel rest

/-- All numeric tokens of a text, in order. -/
def scanNums (cs : List Char) : List (List Char) :=
  scanNumsFuel cs.length cs

/-- Value of a digit string. -/
def natOfDigits (ds : List Char) : ℚ :=
  ds.foldl (fun a c => 10 * a + ((c.toNat - 48 : Nat) : ℚ)) 0

/-- `float(num_str)` for tokens of the grammar above, modelled exactly on
rationals. -/
def parseNum (tok : List Char) : ℚ :=
  let ip := tok.takeWhile (fun c => c ≠ '.')
  match tok.dropWhile (fun c => c ≠ '.') with
  | _ :: frac => natOfDigits ip + natOfDigits frac / (10 : ℚ) ^ frac.length
  | [] => natOfDigits ip

/-- `narrator.PortfolioData` (numeric analytics for one portfolio). -/
structure PortfolioData where
  client_name : String
  portfolio_id : String
  as_of_date : String
  total_value : ℚ
  benchmark : String := "S&P 500"
  mtd_return_pct : ℚ
  qtd_return_pct : ℚ
  ytd_return_pct : ℚ
  one_year_return_pct : Option ℚ := none
  benchmark_ytd_pct : ℚ := 0
  volatility_pct : ℚ
  sharpe_ratio : ℚ
  max_drawdown_pct : ℚ
  beta : ℚ
  var_95_pct : ℚ
  cvar_95_pct : ℚ
  equity_pct : ℚ
  fixed_income_pct : ℚ
  alternatives_pct : ℚ
  cash_pct : ℚ
  top_holding_name : String
  top_holding_pct : ℚ
  sector_concentration : List (String × ℚ) := []
  deriving DecidableEq, Repr

/-- One entry of `numbers_cited`. -/
structure CitedNumber where
  value : ℚ
  source_field : String
  verified : Bool
  deriving DecidableEq, Repr

/-- `narrator.RiskNarrative`. -/
structure RiskNarrative where
  executive_summary : List Char
  performance_commentary : List Char
  risk_assessment : List Char
  allocation_commentary : List Char
  concentration_analysis : List Char
  outlook_considerations : List Char
  action_recommendations : List (List Char) := []
  numbers_cited : List CitedNumber := []
  confidence_score : ℚ := 0
  deriving DecidableEq, Repr

/-- The `source_numbers` dict of `narrator._fact_check_narrative`, in its
declaration order (none of these fields is optional, so the
`source_val is not None` guard of the source is always true). -/
def source_numbers (p : PortfolioData) : List (String × ℚ) :=
  [("total_value", p.total_value),
   ("mtd_return_pct", p.mtd_return_pct),
   ("qtd_return_pct", p.qtd_return_pct),
   ("ytd_return_pct", p.ytd_return_pct),
   ("volatility_pct", p.volatility_pct),
   ("sharpe_ratio", p.sharpe_ratio),
   ("max_drawdown_pct", p.max_drawdown_pct),
   ("beta", p.beta),
   ("var_95_pct", p.var_95_pct),
   ("equity_pct", p.equity_pct),
   ("fixed_income_pct", p.fixed_income_pct),
   ("top_holding_pct", p.top_holding_pct)]

/-- Classification of one extracted numeric token by the field loop of
`narrator._fact_check_narrative`: the first field whose absolute value is
within strict tolerance 0.01 wins and the loop breaks; an unmatched token is
recorded as UNVERIFIED only when its value exceeds 1, and is dropped
otherwise. -/
def classifyToken (fields : List (String × ℚ)) (num : ℚ) : Option CitedNumber :=
  match fields with
  | [] => if 1 < num then some ⟨num, "UNVERIFIED", false⟩ else none
  | (name, v) :: rest =>
    if abs (num - abs v) < 1/100 then some ⟨num, name, true⟩
    else classifyToken rest num

/-- `" ".join([executive_summary, performance_commentary, risk_assessment])`. -/
def fullTextOf (n : RiskNarrative) : List Char :=
  n.executive_summary ++ " ".toList ++ n.performance_commentary ++ " ".toList ++
    n.risk_assessment

/-- `narrator._fact_check_narrative`: extract numeric tokens from the factual
sections, classify each against the source record, and attach the cited list
and the confidence ratio (`len(cited) if cited else 1` as denominator). -/
def fact_check_narrative (n : RiskNarrative) (p : PortfolioData) : RiskNarrative :=
  let cited := (scanNums (fullTextOf n)).filterMap
    (fun tok => classifyToken (source_numbers p) (parseNum tok))
  let verified := cited.countP (fun c => c.verified)
  let total : Nat := if cited.isEmpty then 1 else cited.length
  { n with numbers_cited := cited, confidence_score := (verified : ℚ) / (total : ℚ) }

/-- `summarizer.ComplianceFlag`. -/
inductive ComplianceFlag where
  | suitability_concern
  | missing_disclosure
  | client_complaint
  | concentration_risk
  | outside_business
  | gift_entertainment
  | senior_investor
  | pii_exposed
  deriving DecidableEq, Repr

/-- `summarizer.ComplianceCheck`. -/
structure ComplianceCheck where
  flag : ComplianceFlag
  description : List Char
  severity : String := "medium"
  evidence : List Char
  deriving DecidableEq, Repr

/-- `summarizer.MeetingSummary`, restricted to the fields read or written by
`_detect_pii` plus representative carried-through fields. -/
structure MeetingSummary where
  summary : List Char
  key_discussion_points : List (List Char)
  client_consent_obtained : Bool := false
  compliance_flags : List ComplianceCheck := []
  confidence_score : ℚ := 0
  pii_detected : List String := []
  deriving DecidableEq, Repr

/-- Matcher for the account pattern `\b\d{8,12}\b` at one position: greedy
run of 8 to 12 digits (longest first, as backtracking would try), word
boundaries at both ends. -/
def accountAt (prev : Option Char) (cs : List Char) : Option Nat :=
  if atBoundary prev cs then
    [12, 11, 10, 9, 8].findSome? fun k =>
      if (cs.take k).length = k ∧ (cs.take k).all Char.isDigit ∧
          endBoundary (cs.drop k) then some k else none
  else none

/-- `re.search(r"\b\d{8,12}\b", text)` as a Boolean. -/
def account_search (text : List Char) : Bool := (searchPat accountAt text).isSome

/-- Separator class `[-.\s]` of the phone pattern. -/
def isSepPD (c : Char) : Bool := c = '-' || c = '.' || isSpacePy c

/-- Both remainders of an optional literal character (`X?`): with it consumed
when present, and without. -/
def maybeChar (c : Char) (cs : List Char) : List (List Char) :=
  match cs with
  | x :: rest => if x = c then [rest, cs] else [cs]
  | [] => [cs]

/-- Both remainders of an optional separator `[-.\s]?`. -/
def maybeSep (cs : List Char) : List (List Char) :=
  match cs with
  | x :: rest => if isSepPD x then [rest, cs] else [cs]
  | [] => [cs]

/-- Consume exactly `k` digits. -/
def digitsRunN (k : Nat) (cs : List Char) : Option (List Char) :=
  if (cs.take k).length = k ∧ (cs.take k).all Char.isDigit
  then some (cs.drop k) else none

/-- The core of the phone pattern, `\(?\d{3}\)?[-.\s]?\d{3}[-.\s]?\d{4}\b`,
with all optional parts explored as backtracking would. -/
def phoneCore (cs : List Char) : Bool :=
  (maybeChar '(' cs).any fun c1 =>
    match digitsRunN 3 c1 with
    | none => false
    | some c2 => (maybeChar ')' c2).any fun c3 =>
        (maybeSep c3).any fun c4 =>
          match digitsRunN 3 c4 with
          | none => false
          | some c5 => (maybeSep c5).any fun c6 =>
              match digitsRunN 4 c6 with
              | none => false
              | some c7 => endBoundary c7

/-- Matcher for `\b(?:\+1[-.\s]?)?\(?\d{3}\)?[-.\s]?\d{3}[-.\s]?\d{4}\b`
at one position (the `\b` is evaluated at the position itself, before the
optional `+1` group). -/
def phoneAt (prev : Option Char) (cs : List Char) : Bool :=
  atBoundary prev cs &&
    ((match cs with
      | '+' :: '1' :: r => (maybeSep r).any phoneCore
      | _ => false) || phoneCore cs)

/-- Left-to-right Boolean `re.search` scan for a Boolean positional matcher. -/
def searchBoolFrom (pat : Option Char → List Char → Bool) :
    Option Char → List Char → Bool
  | _, [] => false
  | prev, c :: rest => pat prev (c :: rest) || searchBoolFrom pat (some c) rest

/-- `re.search` of the phone pattern, as a Boolean. -/
def phone_search (text : List Char) : Bool := searchBoolFrom phoneAt none text

/-- Local-part class `[A-Za-z0-9._%+-]` of the email pattern. -/
def emailLocalChar (c : Char) : Bool :=
  c.isAlpha || c.isDigit || c = '.' || c = '_' || c = '%' || c = '+' || c = '-'

/-- Domain class `[A-Za-z0-9.-]`. -/
def emailDomainChar (c : Char) : Bool :=
  c.isAlpha || c.isDigit || c = '.' || c = '-'

/-- Final class `[A-Z|a-z]` of the email pattern (the source class literally
contains the bar character). -/
def emailTldChar (c : Char) : Bool := c.isAlpha || c = '|'

/-- Python `\b` at a match-end position whose last consumed character may be
a non-word character (the TLD class above contains the bar): the boundary
holds iff exactly one of the last consumed character and the next character
is a word character, the end of the text counting as non-word. -/
def xorEndBoundary (consumed rest : List Char) : Bool :=
  match rest with
  | [] => prevIsWord consumed.getLast?
  | c :: _ => xor (prevIsWord consumed.getLast?) (isWordChar c)

/-- Domain-and-suffix part `[A-Za-z0-9.-]+\.[A-Z|a-z]{2,}\b`, explored as
backtracking would (existence over all splits). The trailing `\b` is the
xor boundary against the last consumed TLD character, which may be the
non-word bar. -/
def emailDomain (r : List Char) : Bool :=
  (List.range (r.length + 1)).any fun j =>
    decide (1 ≤ j) && (r.take j).all emailDomainChar &&
    (match r.drop j with
     | '.' :: t =>
       (List.range (t.length + 1)).any fun k =>
         decide (2 ≤ k) && (t.take k).all emailTldChar &&
         xorEndBoundary (t.take k) (t.drop k)
     | _ => false)

/-- Matcher for the email pattern at one position: a non-empty local part,
an at sign, then the domain part. -/
def emailAt (prev : Option Char) (cs : List Char) : Bool :=
  atBoundary prev cs &&
    (List.range (cs.length + 1)).any fun a =>
      decide (1 ≤ a) && (cs.take a).all emailLocalChar &&
      (match cs.drop a with
       | '@' :: r => emailDomain r
       | _ => false)

/-- `re.search` of the email pattern, as a Boolean. -/
def email_search (text : List Char) : Bool := searchBoolFrom emailAt none text

/-- Matcher for `\$[\d,]+(?:\.\d{2})?` at one position: a dollar sign and at
least one digit or comma (the optional cents group can always match empty,
so it never affects whether a match exists). -/
def dollarAt (cs : List Char) : Bool :=
  match cs with
  | '$' :: rest => 1 ≤ (rest.takeWhile (fun c => c.isDigit || c = ',')).length
  | _ => false

/-- `re.search` of the dollar-amount pattern, as a Boolean (this pattern has
no word boundary and no lookbehind, so no previous-character state is
needed). -/
def dollar_search : List Char → Bool
  | [] => false
  | c :: rest => dollarAt (c :: rest) || dollar_search rest

/-- The pattern table of `summarizer._detect_pii`, in source order. The
`re.IGNORECASE` flag is a no-op for these patterns: they contain no
single-case letter class. -/
def piiPatternTable : List (String × (List Char → Bool)) :=
  [("ssn", ssn_search), ("account_number", account_search),
   ("phone", phone_search), ("email", email_search),
   ("dollar_amount", dollar_search)]

/-- The `pii_types` list computed by `summarizer._detect_pii`. -/
def detect_pii_types (transcript : List Char) : List String :=
  piiPatternTable.foldl
    (fun acc p => if p.2 transcript then acc ++ [p.1] else acc) []

/-- `", ".join(pii_types)`. -/
def joinCommaSp (xs : List String) : List Char :=
  (String.intercalate ", " xs).toList

/-- `summarizer._detect_pii`: overwrite `pii_detected` with the detected
types and append a high-severity flag when an SSN or account number is
present. -/
def detect_pii (s : MeetingSummary) (transcript : List Char) : MeetingSummary :=
  let pts := detect_pii_types transcript
  if "ssn" ∈ pts ∨ "account_number" ∈ pts then
    { s with pii_detected := pts
             compliance_flags := s.compliance_flags ++
               [{ flag := ComplianceFlag.pii_exposed
                  description := "Sensitive PII detected in transcript — ensure redaction before storage".toList
                  severity := "high"
                  evidence := "PII types detected: ".toList ++ joinCommaSp pts }] }
  else { s with pii_detected := pts }

lemma char_ofNat_toNat (n : Nat) (h : n < 55296) : (Char.ofNat n).toNat = n := by
  have hval : n.isValidChar := Or.inl h
  simp only [Char.ofNat, Char.toNat]
  rw [dif_pos hval]
  simp [Char.ofNatAux, UInt32.ofNat', UInt32.toNat, BitVec.toNat_ofNat]

lemma lowerChar_fix (d : Char) (h : ¬(65 ≤ d.toNat ∧ d.toNat ≤ 90)) :
    lowerChar d = d := by
  unfold lowerChar
  rw [if_neg h]

lemma lowerChar_lowerChar (c : Char) : lowerChar (lowerChar c) = lowerChar c := by
  by_cases h : 65 ≤ c.toNat ∧ c.toNat ≤ 90
  · apply lowerChar_fix
    have hc : lowerChar c = Char.ofNat (c.toNat + 32) := by
      unfold lowerChar
      rw [if_pos h]
    rw [hc, char_ofNat_toNat _ (by omega)]
    omega
  · rw [lowerChar_fix c h]
    exact lowerChar_fix c h

lemma map_lowerChar_idem (cs : List Char) :
    (cs.map lowerChar).map lowerChar = cs.map lowerChar := by
  rw [List.map_map]
  exact List.map_congr_left (fun c _ => lowerChar_lowerChar c)

lemma pyIn_nil (hay : List Char) : pyIn [] hay = true := by
  unfold pyIn
  rw [List.any_eq_true]
  exact ⟨0, by simp [List.mem_range], by simp [List.isPrefixOf]⟩

lemma pyIn_of_isPrefixOf (needle hay : List Char) (i : Nat) (hi : i ≤ hay.length)
    (h : needle.isPrefixOf (hay.drop i) = true) : pyIn needle hay = true := by
  unfold pyIn
  rw [List.any_eq_true]
  refine ⟨i, ?_, h⟩
  simp only [List.mem_range]
  omega

lemma pyIn_slice (text : List Char) (a m : Nat) :
    pyIn ((text.drop a).take m) text = true := by
  by_cases ha : a ≤ text.length
  · refine pyIn_of_isPrefixOf _ _ a ha ?_
    rw [List.isPrefixOf_iff_prefix]
    exact List.take_prefix m (text.drop a)
  · have h1 : text.drop a = [] := List.drop_eq_nil_of_le (by omega)
    rw [h1]
    simp only [List.take_nil]
    exact pyIn_nil text

lemma take_isPrefixOf_take (W : List Char) (l e : Nat) :
    ((W.take l).isPrefixOf (W.take (l + e))) = true := by
  rw [List.isPrefixOf_iff_prefix]
  have h1 : (W.take (l + e)).take l = W.take l := by
    rw [List.take_take]
    congr 1
    omega
  rw [← h1]
  exact List.take_prefix l (W.take (l + e))

lemma map_slice (f : Char → Char) (u : List Char) (a m : Nat) :
    ((u.drop a).take m).map f = ((u.map f).drop a).take m := by
  rw [List.map_take, List.map_drop]

/-- The matched token (slice of `lower` at the match span) is a prefix of
what remains of the evidence window after dropping the pre-context. -/
lemma tok_isPrefixOf_window (lower : List Char) (s l : Nat) :
    (((lower.drop s).take l).isPrefixOf
      (((lower.drop (s - 20)).take (s + l + 20 - (s - 20))).drop (s - (s - 20)))) = true := by
  have h1 : ((lower.drop (s - 20)).take (s + l + 20 - (s - 20))).drop (s - (s - 20)) =
      ((lower.drop (s - 20)).drop (s - (s - 20))).take (s + l + 20 - (s - 20) - (s - (s - 20))) := by
    rw [List.drop_take]
  have h2 : (lower.drop (s - 20)).drop (s - (s - 20)) = lower.drop s := by
    rw [List.drop_drop]
    congr 1
    omega
  have h3 : s + l + 20 - (s - 20) - (s - (s - 20)) = l + 20 := by omega
  rw [h1, h2, h3]
  exact take_isPrefixOf_take (lower.drop s) l 20

/-- Core containment fact for the de-duplication check: the lower-cased match
token is a Python substring of the lower-cased evidence window. -/
lemma pyIn_tok_window (text : List Char) (s l : Nat) :
    pyIn ((((text.map lowerChar).drop s).take l).map lowerChar)
      (((text.drop (s - 20)).take (s + l + 20 - (s - 20))).map lowerChar) = true := by
  have htok : (((text.map lowerChar).drop s).take l).map lowerChar =
      ((text.map lowerChar).drop s).take l := by
    rw [map_slice, map_lowerChar_idem]
  have hev : ((text.drop (s - 20)).take (s + l + 20 - (s - 20))).map lowerChar =
      ((text.map lowerChar).drop (s - 20)).take (s + l + 20 - (s - 20)) :=
    map_slice lowerChar text _ _
  rw [htok, hev]
  by_cases hsl : s ≤ (text.map lowerChar).length
  · refine pyIn_of_isPrefixOf _ _ (s - (s - 20)) ?_ (tok_isPrefixOf_window _ s l)
    have hlen : (((text.map lowerChar).drop (s - 20)).take (s + l + 20 - (s - 20))).length =
        min (s + l + 20 - (s - 20)) ((text.map lowerChar).length - (s - 20)) := by
      simp [List.length_take, List.length_drop]
    rw [hlen, Nat.le_min]
    constructor <;> omega
  · have h2 : (text.map lowerChar).drop s = [] := List.drop_eq_nil_of_le (by omega)
    rw [h2]
    simp only [List.take_nil]
    exact pyIn_nil _

lemma promDup_append_left (tok : List Char) (vs tail : List Violation)
    (h : promDup tok vs = true) : promDup tok (vs ++ tail) = true := by
  unfold promDup at h ⊢
  rw [List.any_append, h, Bool.true_or]

/-- Every pattern match already covered by an existing finding of the list:
the de-duplication test fires for the match of `pat` (when there is one). -/
def promFlagged (lower : List Char) (pat : Option Char → List Char → Option Nat)
    (vs : List Violation) : Prop :=
  ∀ s l, searchPat pat lower = some (s, l) →
    promDup ((lower.drop s).take l) vs = true

lemma promFlagged_of_append {lower : List Char}
    {pat : Option Char → List Char → Option Nat} {vs : List Violation}
    (h : promFlagged lower pat vs) (tail : List Violation) :
    promFlagged lower pat (vs ++ tail) :=
  fun s l hs => promDup_append_left _ _ _ (h s l hs)

lemma promStep_shape (text lower : List Char) (vs : List Violation)
    (pat : Option Char → List Char → Option Nat) :
    ∃ tail, promStep text lower vs pat = vs ++ tail := by
  unfold promStep
  cases searchPat pat lower with
  | none => exact ⟨[], (List.append_nil vs).symm⟩
  | some sl =>
    obtain ⟨s, l⟩ := sl
    dsimp only
    split
    · exact ⟨[], (List.append_nil vs).symm⟩
    · exact ⟨[mkPromViolation text ((lower.drop s).take l) s l], rfl⟩

lemma promStep_flagged_preserve {text lower : List Char} {vs : List Violation}
    {q pat : Option Char → List Char → Option Nat}
    (h : promFlagged lower q vs) :
    promFlagged lower q (promStep text lower vs pat) := by
  obtain ⟨tail, hsh⟩ := promStep_shape text lower vs pat
  rw [hsh]
  exact promFlagged_of_append h tail

lemma promStep_flagged_self (text : List Char) (vs : List Violation)
    (pat : Option Char → List Char → Option Nat) :
    promFlagged (text.map lowerChar) pat
      (promStep text (text.map lowerChar) vs pat) := by
  intro s l hs
  unfold promStep
  rw [hs]
  dsimp only
  by_cases hf : promDup (((text.map lowerChar).drop s).take l) vs = true
  · rw [if_pos hf]
    exact hf
  · rw [if_neg hf]
    unfold promDup
    rw [List.any_append]
    have hnew : (List.any [mkPromViolation text (((text.map lowerChar).drop s).take l) s l]
        (fun v => v.violation_type == ViolationType.promissory_language &&
          pyIn ((((text.map lowerChar).drop s).take l).map lowerChar)
            (v.evidence.map lowerChar))) = true := by
      simp only [List.any_cons, List.any_nil, Bool.or_false]
      dsimp only [mkPromViolation]
      rw [Bool.and_eq_true]
      exact ⟨rfl, pyIn_tok_window text s l⟩
    rw [hnew, Bool.or_true]

lemma foldl_promStep_preserve {text lower : List Char}
    {q : Option Char → List Char → Option Nat}
    (pats : List (Option Char → List Char → Option Nat)) (vs : List Violation)
    (h : promFlagged lower q vs) :
    promFlagged lower q (pats.foldl (promStep text lower) vs) := by
  induction pats generalizing vs with
  | nil => exact h
  | cons p ps ih =>
    rw [List.foldl_cons]
    exact ih _ (promStep_flagged_preserve h)

lemma promLoop_flagged (text : List Char)
    (pats : List (Option Char → List Char → Option Nat)) (vs : List Violation)
    (q : Option Char → List Char → Option Nat) (hq : q ∈ pats) :
    promFlagged (text.map lowerChar) q
      (pats.foldl (promStep text (text.map lowerChar)) vs) := by
  induction pats generalizing vs with
  | nil => cases hq
  | cons p ps ih =>
    rw [List.foldl_cons]
    rcases List.mem_cons.mp hq with rfl | hmem
    · exact foldl_promStep_preserve ps _ (promStep_flagged_self text vs q)
    · exact ih _ hmem

lemma promStep_of_flagged {text lower : List Char} {vs : List Violation}
    {pat : Option Char → List Char → Option Nat}
    (hf : promFlagged lower pat vs) : promStep text lower vs pat = vs := by
  unfold promStep
  cases hs : searchPat pat lower with
  | none => rfl
  | some sl =>
    obtain ⟨s, l⟩ := sl
    dsimp only
    rw [if_pos (hf s l hs)]

lemma foldl_promStep_stable {text lower : List Char}
    (pats : List (Option Char → List Char → Option Nat)) (vs : List Violation)
    (h : ∀ q ∈ pats, promFlagged lower q vs) :
    pats.foldl (promStep text lower) vs = vs := by
  induction pats with
  | nil => rfl
  | cons p ps ih =>
    rw [List.foldl_cons, promStep_of_flagged (h p (List.mem_cons_self p ps))]
    exact ih (fun q hq => h q (List.mem_cons_of_mem p hq))

/-- Rerunning the full promissory-pattern loop on its own output adds
nothing: every pattern match is already covered, so each step skips. -/
lemma promLoop_idem (text : List Char) (vs : List Violation) :
    promLoop text (text.map lowerChar) (promLoop text (text.map lowerChar) vs) =
      promLoop text (text.map lowerChar) vs := by
  unfold promLoop
  exact foldl_promStep_stable promPatterns _
    (fun q hq => promLoop_flagged text promPatterns vs q hq)

lemma checkerDecide_idem (d : ComplianceDecision) (vs : List Violation)
    (ws : List (List Char)) :
    checkerDecide (checkerDecide d vs ws) vs ws = checkerDecide d vs ws := by
  unfold checkerDecide
  split_ifs <;> rfl

/-- A fresh report as the aggregation step would receive it with no upstream
findings (used as a base point for concrete runs). -/
def emptyReport : ComplianceReport :=
  { decision := ComplianceDecision.approved
    overall_risk_score := 0
    violations := []
    warnings := []
    required_disclosures := []
    suggested_revisions := []
    communication_type := "email"
    contains_performance_data := false
    contains_recommendations := false
    contains_projections := false
    applicable_rules := []
    confidence_score := 0 }

/-- C10: the aggregation step `_rule_based_checks` modifies only the
violations, warnings, required_disclosures, decision and overall_risk_score
of the report; communication_type, the three content flags, applicable_rules,
suggested_revisions and confidence_score are returned unchanged. -/
theorem c10_frame (r : ComplianceReport) (text : List Char)
    (ctx : Option ClientContext) :
    (rule_based_checks r text ctx).communication_type = r.communication_type ∧
    (rule_based_checks r text ctx).contains_performance_data = r.contains_performance_data ∧
    (rule_based_checks r text ctx).contains_recommendations = r.contains_recommendations ∧
    (rule_based_checks r text ctx).contains_projections = r.contains_projections ∧
    (rule_based_checks r text ctx).applicable_rules = r.applicable_rules ∧
    (rule_based_checks r text ctx).suggested_revisions = r.suggested_revisions ∧
    (rule_based_checks r text ctx).confidence_score = r.confidence_score :=
  ⟨rfl, rfl, rfl, rfl, rfl, rfl, rfl⟩

/-- C3 (amended): rerunning `_rule_based_checks` on its own output with the
same text and client context returns the output unchanged, provided the text
has no SSN match, the performance-disclosure branch does not fire, and the
senior-warning branch does not fire. Without those provisos the second run
appends a duplicate PII finding, disclosure or warning (see the
counterexample). -/
theorem c3_aggregation_idempotent (r : ComplianceReport) (text : List Char)
    (ctx : Option ClientContext) (hssn : ssn_search text = false)
    (hperf : r.contains_performance_data = false ∨
      hasDisclaimer (text.map lowerChar) = true)
    (hsen : isSeniorCtx ctx = false ∨ r.contains_recommendations = false) :
    rule_based_checks (rule_based_checks r text ctx) text ctx =
      rule_based_checks r text ctx := by
  have hpb : (r.contains_performance_data && !hasDisclaimer (text.map lowerChar)) = false := by
    rcases hperf with h | h <;> simp [h]
  have hsb : (isSeniorCtx ctx && r.contains_recommendations) = false := by
    rcases hsen with h | h <;> simp [h]
  unfold rule_based_checks
  simp only [hssn, hpb, hsb, Bool.false_eq_true, if_false, List.append_nil]
  simp only [promLoop_idem, checkerDecide_idem]

/-- C3 counterexample: on a text containing an SSN, the aggregation step
appends the PII finding again on a second run, so the output changes (the
finding count goes from 1 to 2 and the decision from requires_changes to
rejected). -/
theorem c3_counterexample :
    rule_based_checks (rule_based_checks emptyReport "SSN 123-45-6789.".toList none)
        "SSN 123-45-6789.".toList none ≠
      rule_based_checks emptyReport "SSN 123-45-6789.".toList none := by
  intro h
  exact absurd (congrArg (fun rep => rep.violations.length) h) (by decide)

/-- C3 witness: a concrete rerun that is a fixed point. -/
theorem c3_witness :
    rule_based_checks (rule_based_checks emptyReport "All good here.".toList none)
        "All good here.".toList none =
      rule_based_checks emptyReport "All good here.".toList none :=
  c3_aggregation_idempotent emptyReport "All good here.".toList none (by decide)
    (Or.inl rfl) (Or.inl rfl)

lemma promStep_mem {text lower : List Char} {vs : List Violation}
    {pat : Option Char → List Char → Option Nat} {v : Violation}
    (hv : v ∈ promStep text lower vs pat) :
    v ∈ vs ∨ ∃ tok s l, v = mkPromViolation text tok s l := by
  unfold promStep at hv
  cases hs : searchPat pat lower with
  | none =>
    rw [hs] at hv
    exact Or.inl hv
  | some sl =>
    obtain ⟨s, l⟩ := sl
    rw [hs] at hv
    dsimp only at hv
    split at hv
    · exact Or.inl hv
    · rcases List.mem_append.mp hv with h | h
      · exact Or.inl h
      · exact Or.inr ⟨_, s, l, List.mem_singleton.mp h⟩

lemma promLoop_mem {text lower : List Char} {v : Violation}
    (pats : List (Option Char → List Char → Option Nat)) (vs : List Violation)
    (hv : v ∈ pats.foldl (promStep text lower) vs) :
    v ∈ vs ∨ ∃ tok s l, v = mkPromViolation text tok s l := by
  induction pats generalizing vs with
  | nil => exact Or.inl hv
  | cons p ps ih =>
    rw [List.foldl_cons] at hv
    rcases ih _ hv with h | h
    · exact promStep_mem h
    · exact Or.inr h

/-- C4 (amended): every promissory_language finding emitted by the rule-based
detector (run on a fresh report) has an evidence string that is a literal
substring of the input text; the PII finding instead carries the synthesized
placeholder evidence (see the counterexample). -/
theorem c4_evidence_substring (text : List Char) (ctx : Option ClientContext)
    (v : Violation) (hv : v ∈ (rule_based_checks emptyReport text ctx).violations)
    (ht : v.violation_type = ViolationType.promissory_language) :
    pyIn v.evidence text = true := by
  have hshape : (rule_based_checks emptyReport text ctx).violations =
      promLoop text (text.map lowerChar) emptyReport.violations ++
        (if ssn_search text then [piiViolation] else []) := rfl
  rw [hshape] at hv
  rcases List.mem_append.mp hv with h | h
  · rcases promLoop_mem promPatterns _ h with h0 | ⟨tok, s, l, rfl⟩
    · simp [emptyReport] at h0
    · dsimp only [mkPromViolation]
      exact pyIn_slice text (s - 20) (s + l + 20 - (s - 20))
  · exfalso
    split at h
    · rw [List.mem_singleton.mp h] at ht
      simp [piiViolation] at ht
    · simp at h

/-- C4 counterexample: on a text containing an SSN, the detector emits a
finding whose evidence (the placeholder `[SSN REDACTED]`) does not occur in
the input text, not even located case-insensitively. -/
theorem c4_counterexample :
    ((rule_based_checks emptyReport "SSN 123-45-6789.".toList none).violations.any
      (fun v => !(pyIn (v.evidence.map lowerChar)
        ("SSN 123-45-6789.".toList.map lowerChar)))) = true := by
  decide

/-- C4 witness: the promissory finding for a concrete text has evidence that
is literally a substring of the text. -/
theorem c4_witness :
    pyIn (((rule_based_checks emptyReport "Totally guaranteed profits.".toList
      none).violations.headD piiViolation).evidence)
      "Totally guaranteed profits.".toList = true :=
  c4_evidence_substring "Totally guaranteed profits.".toList none _ (by decide)
    (by decide)

lemma promDup_exists {tok : List Char} {vs : List Violation}
    (h : promDup tok vs = true) :
    ∃ v ∈ vs, v.violation_type = ViolationType.promissory_language ∧
      pyIn (tok.map lowerChar) (v.evidence.map lowerChar) = true := by
  unfold promDup at h
  rw [List.any_eq_true] at h
  obtain ⟨v, hv, hb⟩ := h
  rw [Bool.and_eq_true, beq_iff_eq] at hb
  exact ⟨v, hv, hb.1, hb.2⟩

/-- C7 (amended): for every text, client context and prior finding set, each
promissory pattern that matches the lowered text is covered in the output by
at least one promissory_language finding whose evidence contains the
lower-cased matched token (case-insensitively); and rerunning the
rule-based promissory loop on its own output appends nothing, so the same
match is never flagged twice. The original "exactly one" fails when the
prior findings already contain duplicates (see the counterexample). -/
theorem c7_promissory_dedup (text : List Char) (ctx : Option ClientContext)
    (r : ComplianceReport) (k : Nat) (hk : k < promPatterns.length) (s l : Nat)
    (hs : searchPat (promPatterns.get ⟨k, hk⟩) (text.map lowerChar) = some (s, l)) :
    (∃ v ∈ (rule_based_checks r text ctx).violations,
      v.violation_type = ViolationType.promissory_language ∧
      pyIn ((((text.map lowerChar).drop s).take l).map lowerChar)
        (v.evidence.map lowerChar) = true) ∧
    promLoop text (text.map lowerChar)
        (promLoop text (text.map lowerChar) r.violations) =
      promLoop text (text.map lowerChar) r.violations := by
  constructor
  · have hfl := promLoop_flagged text promPatterns r.violations _
      (promPatterns.get_mem k hk)
    have hdup := hfl s l hs
    have hdup2 := promDup_append_left _ _
      (if ssn_search text then [piiViolation] else []) hdup
    have hshape : (rule_based_checks r text ctx).violations =
        promLoop text (text.map lowerChar) r.violations ++
          (if ssn_search text then [piiViolation] else []) := rfl
    rw [hshape]
    exact promDup_exists hdup2
  · exact promLoop_idem text r.violations

/-- A prior (externally supplied) promissory finding used to build the C7
counterexample. -/
def priorPromFinding : Violation :=
  { violation_type := ViolationType.promissory_language
    severity := "high"
    description := "llm".toList
    evidence := "guaranteed returns".toList
    regulation := "FINRA Rule 2210(d)(1)(B)"
    suggested_fix := "llm".toList }

/-- C7 counterexample: when the prior finding set already contains two
promissory findings whose evidence contains the token, the detector skips
the rule match and the output has two (not exactly one) promissory findings
whose evidence contains the matched token. -/
theorem c7_counterexample :
    (searchPat guaranteeAt ("Growth is guaranteed here.".toList.map lowerChar)).isSome = true ∧
    ((rule_based_checks { emptyReport with
        violations := [priorPromFinding, priorPromFinding] }
      "Growth is guaranteed here.".toList none).violations.countP
      (fun v => v.violation_type == ViolationType.promissory_language &&
        pyIn "guaranteed".toList (v.evidence.map lowerChar))) = 2 := by
  constructor
  · decide
  · decide

/-- C7 witness: a concrete text, pattern index and match span for which the
covering finding exists and the rerun is a fixed point. -/
theorem c7_witness :
    (∃ v ∈ (rule_based_checks emptyReport "Deal guaranteed!".toList none).violations,
      v.violation_type = ViolationType.promissory_language ∧
      pyIn (((("Deal guaranteed!".toList.map lowerChar).drop 5).take 10).map lowerChar)
        (v.evidence.map lowerChar) = true) ∧
    promLoop "Deal guaranteed!".toList ("Deal guaranteed!".toList.map lowerChar)
        (promLoop "Deal guaranteed!".toList
          ("Deal guaranteed!".toList.map lowerChar) emptyReport.violations) =
      promLoop "Deal guaranteed!".toList ("Deal guaranteed!".toList.map lowerChar)
        emptyReport.violations :=
  c7_promissory_dedup "Deal guaranteed!".toList none emptyReport 0 (by decide)
    5 10 (by decide)

/-- C1 (amended): both decision cascades follow the ordered first-match
rules — rejected when the high count is at least 2; requires_changes when
the high count is exactly 1 or the finding count reaches the variant
threshold (3 in the checker variant, 2 in the demo variant); approved when
there are no findings and no warnings — but in the residual case the checker
variant leaves the report's incoming decision unchanged (it has no final
else branch), while the demo variant returns requires_changes. -/
theorem c1_decision_cascade (prior : ComplianceDecision) (vs : List Violation)
    (ws : List (List Char)) (dvs : List DemoViolation) :
    (2 ≤ highCount vs → checkerDecide prior vs ws = ComplianceDecision.rejected) ∧
    (highCount vs < 2 → (highCount vs = 1 ∨ 3 ≤ vs.length) →
      checkerDecide prior vs ws = ComplianceDecision.requires_changes) ∧
    (highCount vs < 2 → ¬(highCount vs = 1 ∨ 3 ≤ vs.length) →
      vs.length = 0 → ws.length = 0 →
      checkerDecide prior vs ws = ComplianceDecision.approved) ∧
    (highCount vs < 2 → ¬(highCount vs = 1 ∨ 3 ≤ vs.length) →
      ¬(vs.length = 0 ∧ ws.length = 0) → checkerDecide prior vs ws = prior) ∧
    (2 ≤ demoHighCount dvs → demoDecide dvs = "rejected") ∧
    (demoHighCount dvs < 2 → (demoHighCount dvs = 1 ∨ 2 ≤ dvs.length) →
      demoDecide dvs = "requires_changes") ∧
    (demoHighCount dvs < 2 → ¬(demoHighCount dvs = 1 ∨ 2 ≤ dvs.length) →
      dvs.length = 0 → demoDecide dvs = "approved") ∧
    (demoHighCount dvs < 2 → ¬(demoHighCount dvs = 1 ∨ 2 ≤ dvs.length) →
      dvs.length ≠ 0 → demoDecide dvs = "requires_changes") := by
  unfold checkerDecide demoDecide
  refine ⟨?_, ?_, ?_, ?_, ?_, ?_, ?_, ?_⟩ <;> intros <;>
    split_ifs <;> first | rfl | omega

/-- C1 counterexample: a report with a single non-high finding and no
warnings (the residual case) keeps its incoming decision `approved` in the
checker variant instead of the `requires_changes` the claim states. -/
theorem c1_counterexample :
    (rule_based_checks { emptyReport with violations :=
      [{ violation_type := ViolationType.unbalanced_presentation
         severity := "medium"
         description := "only upside mentioned".toList
         evidence := "all positive".toList
         regulation := "FINRA Rule 2210(d)(1)(A)"
         suggested_fix := "add risks".toList }] } [] none).decision ≠
      ComplianceDecision.requires_changes := by
  decide

/-- C1 witness: concrete cascade evaluations through the amended theorem. -/
theorem c1_witness :
    checkerDecide ComplianceDecision.approved [piiViolation, piiViolation] [] =
        ComplianceDecision.rejected ∧
    demoDecide [demoPiiViolation] = "requires_changes" :=
  ⟨(c1_decision_cascade ComplianceDecision.approved [piiViolation, piiViolation]
      [] []).1 (by decide),
   (c1_decision_cascade ComplianceDecision.approved [] [] [demoPiiViolation]).2.2.2.2.2.1
      (by decide) (by decide)⟩

lemma round2_int_div_100 (z : ℤ) : round2 ((z : ℚ) / 100) = (z : ℚ) / 100 := by
  unfold round2
  have h1 : (z : ℚ) / 100 * 100 = (z : ℚ) := by field_simp
  simp only [h1, Int.floor_intCast]
  norm_num

lemma min_formula_as_int (n h : Nat) :
    min (1 : ℚ) ((n : ℚ) * (2/10) + (h : ℚ) * (3/10)) =
      ((min 100 (20 * (n : ℤ) + 30 * (h : ℤ)) : ℤ) : ℚ) / 100 := by
  have h1 : ((n : ℚ) * (2/10) + (h : ℚ) * (3/10)) = ((20 * (n : ℤ) + 30 * (h : ℤ) : ℤ) : ℚ) / 100 := by
    push_cast
    ring
  rw [h1, Int.cast_min]
  rw [← min_div_div_right (by norm_num : (0:ℚ) ≤ 100)]
  norm_num

lemma riskFormula_mono (n1 h1 n2 h2 : Nat) (hn : n1 ≤ n2) (hh : h1 ≤ h2) :
    min (1 : ℚ) ((n1 : ℚ) * (2/10) + (h1 : ℚ) * (3/10)) ≤
      min 1 ((n2 : ℚ) * (2/10) + (h2 : ℚ) * (3/10)) := by
  apply min_le_min le_rfl
  have hn2 : (n1 : ℚ) ≤ (n2 : ℚ) := by exact_mod_cast hn
  have hh2 : (h1 : ℚ) ≤ (h2 : ℚ) := by exact_mod_cast hh
  linarith

lemma riskFormula_bounds (n h : Nat) :
    0 ≤ min (1 : ℚ) ((n : ℚ) * (2/10) + (h : ℚ) * (3/10)) ∧
      min (1 : ℚ) ((n : ℚ) * (2/10) + (h : ℚ) * (3/10)) ≤ 1 :=
  ⟨le_min (by norm_num) (by positivity), min_le_left 1 _⟩

lemma demoRisk_formula (dvs : List DemoViolation) :
    demoRisk dvs =
      min 1 ((dvs.length : ℚ) * (2/10) + (demoHighCount dvs : ℚ) * (3/10)) := by
  unfold demoRisk
  rw [min_formula_as_int, round2_int_div_100, ← min_formula_as_int]

/-- C2: both risk scores equal `min(1, 0.2·findings + 0.3·high)` (the demo
variant's `round(·, 2)` is the identity on these values); each score is
monotone under appending a finding and always lies in `[0, 1]`. -/
theorem c2_risk_score (vs : List Violation) (v : Violation)
    (dvs : List DemoViolation) (dv : DemoViolation) :
    checkerRisk vs = min 1 ((vs.length : ℚ) * (2/10) + (highCount vs : ℚ) * (3/10)) ∧
    demoRisk dvs = min 1 ((dvs.length : ℚ) * (2/10) + (demoHighCount dvs : ℚ) * (3/10)) ∧
    checkerRisk vs ≤ checkerRisk (vs ++ [v]) ∧
    0 ≤ checkerRisk vs ∧ checkerRisk vs ≤ 1 ∧
    demoRisk dvs ≤ demoRisk (dvs ++ [dv]) ∧
    0 ≤ demoRisk dvs ∧ demoRisk dvs ≤ 1 := by
  have hlen : vs.length ≤ (vs ++ [v]).length := by simp
  have hhigh : highCount vs ≤ highCount (vs ++ [v]) := by
    unfold highCount
    rw [List.countP_append]
    omega
  have hdlen : dvs.length ≤ (dvs ++ [dv]).length := by simp
  have hdhigh : demoHighCount dvs ≤ demoHighCount (dvs ++ [dv]) := by
    unfold demoHighCount
    rw [List.countP_append]
    omega
  refine ⟨rfl, demoRisk_formula dvs, ?_, (riskFormula_bounds _ _).1,
    (riskFormula_bounds _ _).2, ?_, ?_, ?_⟩
  · exact riskFormula_mono _ _ _ _ hlen hhigh
  · rw [demoRisk_formula, demoRisk_formula]
    exact riskFormula_mono _ _ _ _ hdlen hdhigh
  · rw [demoRisk_formula]
    exact (riskFormula_bounds _ _).1
  · rw [demoRisk_formula]
    exact (riskFormula_bounds _ _).2

/-- C6: whenever the lowered text contains a performance-style token (the
percent pattern with a nearby performance word) and none of the four
disclaimer phrases, the demo violation detector emits a missing_disclosure
finding with severity high citing the marketing-performance regulation. -/
theorem c6_missing_disclosure (text : List Char)
    (hperf : perf_search (text.map lowerChar) = true)
    (hdisc : hasDisclaimerDemo (text.map lowerChar) = false) :
    ∃ v ∈ (demo_check_core text).violations,
      v.vtype = "missing_disclosure" ∧ v.severity = "high" ∧
      v.regulation = "SEC Marketing Rule 206(4)-1" := by
  refine ⟨demoDisclosureViolation, ?_, rfl, rfl, rfl⟩
  have hcond : (perf_search (text.map lowerChar) &&
      !hasDisclaimerDemo (text.map lowerChar)) = true := by
    rw [hperf, hdisc]
    rfl
  show demoDisclosureViolation ∈ (demo_check_core text).violations
  simp only [demo_check_core]
  rw [hcond]
  simp

/-- C6 witness: a concrete performance claim without a disclaimer. -/
theorem c6_witness :
    ∃ v ∈ (demo_check_core "Earned 12% annual gains recently".toList).violations,
      v.vtype = "missing_disclosure" ∧ v.severity = "high" ∧
      v.regulation = "SEC Marketing Rule 206(4)-1" :=
  c6_missing_disclosure "Earned 12% annual gains recently".toList (by decide)
    (by decide)

/-- C5: each extracted numeric token is classified exactly one way — the
first source field (in declared order) whose absolute value is within the
strict 0.01 tolerance wins and the token is verified; otherwise a token
greater than 1 is recorded as UNVERIFIED; otherwise it is omitted — and the
narrator's cited list is exactly the token-wise classification of the
scanned sections against the source record. -/
theorem c5_token_classification (fields : List (String × ℚ)) (num : ℚ)
    (n : RiskNarrative) (p : PortfolioData) :
    (classifyToken fields num =
      match fields.find? (fun pr => decide (abs (num - abs pr.2) < (1:ℚ)/100)) with
      | some pr => some ⟨num, pr.1, true⟩
      | none => if 1 < num then some ⟨num, "UNVERIFIED", false⟩ else none) ∧
    (fact_check_narrative n p).numbers_cited =
      (scanNums (fullTextOf n)).filterMap
        (fun tok => classifyToken (source_numbers p) (parseNum tok)) := by
  refine ⟨?_, rfl⟩
  induction fields with
  | nil => simp [classifyToken, List.find?]
  | cons pr rest ih =>
    obtain ⟨name, v⟩ := pr
    by_cases h : abs (num - abs v) < 1/100
    · rw [List.find?_cons_of_pos _ (by simpa using h)]
      simp only [classifyToken]
      rw [if_pos h]
    · rw [List.find?_cons_of_neg _ (by simpa using h)]
      simp only [classifyToken]
      rw [if_neg h]
      exact ih

/-- C8: the confidence score equals verified count over `max(1, total)`; when
nothing is cited the denominator floor of 1 yields 0 instead of a division
error; and the score always lies in `[0, 1]`. -/
theorem c8_confidence_ratio (n : RiskNarrative) (p : PortfolioData) :
    (fact_check_narrative n p).confidence_score =
      ((fact_check_narrative n p).numbers_cited.countP (fun c => c.verified) : ℚ) /
        ((max 1 (fact_check_narrative n p).numbers_cited.length : Nat) : ℚ) ∧
    0 ≤ (fact_check_narrative n p).confidence_score ∧
    (fact_check_narrative n p).confidence_score ≤ 1 ∧
    ((fact_check_narrative n p).numbers_cited = [] →
      (fact_check_narrative n p).confidence_score = 0) := by
  simp only [fact_check_narrative]
  set cited := (scanNums (fullTextOf n)).filterMap
    (fun tok => classifyToken (source_numbers p) (parseNum tok)) with hcited
  by_cases hc : cited = []
  · rw [hc]
    norm_num
  · have hlen : 1 ≤ cited.length := List.length_pos.mpr hc
    have hne : cited.isEmpty = false := by
      simp [List.isEmpty_iff, hc]
    have htot : (if cited.isEmpty then 1 else cited.length) = cited.length := by
      rw [hne]
      rfl
    have hmax : max 1 cited.length = cited.length := by omega
    have hcount : cited.countP (fun c => c.verified) ≤ cited.length :=
      List.countP_le_length _
    have hpos : (0 : ℚ) < (cited.length : ℚ) := by
      exact_mod_cast hlen
    refine ⟨by rw [htot, hmax], ?_, ?_, fun hh => absurd hh hc⟩
    · rw [htot]
      positivity
    · rw [htot]
      rw [div_le_one hpos]
      exact_mod_cast hcount

/-- An empty narrative (no scanned text at all), for concrete runs. -/
def emptyNarrative : RiskNarrative :=
  { executive_summary := []
    performance_commentary := []
    risk_assessment := []
    allocation_commentary := []
    concentration_analysis := []
    outlook_considerations := [] }

/-- A concrete portfolio record, for concrete runs. -/
def samplePortfolio : PortfolioData :=
  { client_name := "client"
    portfolio_id := "P-1"
    as_of_date := "2025-01-01"
    total_value := 1000000
    mtd_return_pct := 1
    qtd_return_pct := 2
    ytd_return_pct := 3
    volatility_pct := 14
    sharpe_ratio := 1
    max_drawdown_pct := 5
    beta := 1
    var_95_pct := 2
    cvar_95_pct := 3
    equity_pct := 60
    fixed_income_pct := 30
    alternatives_pct := 5
    cash_pct := 5
    top_holding_name := "X"
    top_holding_pct := 7 }

/-- C8 witness: with no numeric tokens at all, the denominator floor yields
confidence 0 rather than a division error. -/
theorem c8_witness :
    (fact_check_narrative emptyNarrative samplePortfolio).confidence_score = 0 :=
  (c8_confidence_ratio emptyNarrative samplePortfolio).2.2.2 rfl

lemma foldl_name_filter (l : List (String × (List Char → Bool)))
    (t : List Char) (acc : List String) :
    l.foldl (fun acc p => if p.2 t then acc ++ [p.1] else acc) acc =
      acc ++ (l.filter (fun p => p.2 t)).map Prod.fst := by
  induction l generalizing acc with
  | nil => simp
  | cons p ps ih =>
    by_cases h : p.2 t
    · simp [List.foldl_cons, h, ih, List.filter_cons]
    · simp [List.foldl_cons, h, ih, List.filter_cons]

/-- C9: the PII scan returns exactly the categories, out of the fixed five,
whose single pattern matches the text (with no duplicates), and applying
`_detect_pii` twice yields the same `pii_detected` category list (the field
is overwritten, not appended). -/
theorem c9_pii_scan (text : List Char) (s : MeetingSummary) :
    (∀ c : String, c ∈ detect_pii_types text ↔
      ((c = "ssn" ∧ ssn_search text = true) ∨
       (c = "account_number" ∧ account_search text = true) ∨
       (c = "phone" ∧ phone_search text = true) ∨
       (c = "email" ∧ email_search text = true) ∨
       (c = "dollar_amount" ∧ dollar_search text = true))) ∧
    (detect_pii_types text).Nodup ∧
    (detect_pii (detect_pii s text) text).pii_detected =
      (detect_pii s text).pii_detected := by
  have hshape : detect_pii_types text =
      (piiPatternTable.filter (fun p => p.2 text)).map Prod.fst := by
    unfold detect_pii_types
    rw [foldl_name_filter]
    simp
  refine ⟨?_, ?_, ?_⟩
  · intro c
    rw [hshape]
    simp only [List.mem_map, List.mem_filter, piiPatternTable]
    constructor
    · rintro ⟨pr, ⟨hin, hmatch⟩, hc⟩
      subst hc
      fin_cases hin <;> simp_all
    · rintro (⟨rfl, hm⟩ | ⟨rfl, hm⟩ | ⟨rfl, hm⟩ | ⟨rfl, hm⟩ | ⟨rfl, hm⟩)
      · exact ⟨("ssn", ssn_search), ⟨by simp, hm⟩, rfl⟩
      · exact ⟨("account_number", account_search), ⟨by simp, hm⟩, rfl⟩
      · exact ⟨("phone", phone_search), ⟨by simp, hm⟩, rfl⟩
      · exact ⟨("email", email_search), ⟨by simp, hm⟩, rfl⟩
      · exact ⟨("dollar_amount", dollar_search), ⟨by simp, hm⟩, rfl⟩
  · rw [hshape]
    have hsub : List.Sublist
        ((piiPatternTable.filter (fun p => p.2 text)).map Prod.fst)
        (piiPatternTable.map Prod.fst) :=
      List.Sublist.map _ (List.filter_sublist _)
    refine hsub.nodup ?_
    show (["ssn", "account_number", "phone", "email", "dollar_amount"] :
      List String).Nodup
    decide
  · unfold detect_pii
    by_cases hc : "ssn" ∈ detect_pii_types text ∨
        "account_number" ∈ detect_pii_types text
    · rw [if_pos hc, if_pos hc]
    · rw [if_neg hc, if_neg hc]

lemma sanity_guarantee_search : searchPat guaranteeAt "we guarantee it".toList = some (3, 9) := by decide

lemma sanity_guarantee_no_match : searchPat guaranteeAt "guaranteeds".toList = none := by decide

lemma sanity_risk_free_sep : searchPat riskFreeAt "risk-free".toList = some (0, 9) := by decide

lemma sanity_risk_free_nosep : searchPat riskFreeAt "riskfree!".toList = some (0, 8) := by decide

lemma sanity_ssn_present : ssn_search "id 123-45-6789.".toList = true := by decide

lemma sanity_ssn_absent : ssn_search "id 1234-45-6789".toList = false := by decide

lemma sanity_perf_annual : perf_search "earned 12% annual growth".toList = true := by decide

lemma sanity_perf_decimal : perf_search "12.5%  returns".toList = true := by decide

lemma sanity_perf_space_blocks : perf_search "12 % returns".toList = false := by decide

lemma sanity_pos_word_count : countAlts posWords "great great top best".toList = 4 := by decide

lemma sanity_risk_word_count : countAlts riskWords "no downside".toList = 0 := by decide

lemma sanity_demo_decide_single_high : demoDecide [demoPiiViolation] = "requires_changes" := by decide

lemma sanity_scan_nums : scanNums "was 14.2% with 1.15.".toList = ["14.2".toList, "1.15".toList] := by decide

lemma sanity_pii_phone_email_dollar : detect_pii_types "call 555-123-4567 or mail a.b@x.co for $5".toList =
    ["phone", "email", "dollar_amount"] := by decide

lemma sanity_pii_ssn_account : detect_pii_types "ssn 123-45-6789 acct 12345678".toList =
    ["ssn", "account_number"] := by decide

lemma sanity_phone_parenthesized : phone_search "(555) 123-4567".toList = true := by decide

lemma sanity_email_plain : email_search "mail a.b@x.co now".toList = true := by decide

lemma sanity_email_trailing_bar_then_space :
    email_search "a@b.c| ".toList = false := by decide

lemma sanity_email_trailing_bar_then_word :
    email_search "a@b.c|d5".toList = true := by decide

lemma sanity_email_bar_at_text_end : email_search "a@b.cd|".toList = true := by decide
